import Mathlib

/-!
# Verification of the callmeout daily push-goal core

Shallow embedding of the core of the `callmeout` server: the per-user daily
GitHub push counter store, the webhook ingestion handler (`POST /api/gitwebhook`)
and the goal-evaluation sweep (`checkPushGoals`).  The embedding follows the
current server source (the Vercel-ready variant defining `checkPushGoals`);
the two earlier server variants in the repository are superseded duplicates of
the same routes and are noted where a claim cites them.

Modelling conventions:
* Database rows become structures mirroring the SQL schema (`users`,
  `github_counter`); the `is_job_done` and `annoy_time` columns used by the
  code are included even though the checked-in schema file predates them.
* The store is a pair of row lists; store reads and writes are modelled as
  succeeding (the sweep ignores write errors, and fetch errors only cause an
  early return which is behaviourally the empty batch).
* JS exceptions (a rejected `axios.post`, `crypto.timingSafeEqual` on
  buffers of different length, `Buffer.from(undefined)`, `JSON.parse`
  failures) are modelled explicitly: the sweep carries an `aborted` flag and
  the webhook handler returns a `crashed` outcome carrying the untouched
  store.
* HMAC-SHA256 itself is not computed; the hex digest of the request body is
  a parameter of the handler, exactly as `hmac.digest('hex')` is a value the
  code compares against the claimed signature.
-/

/-- A row of the `users` table: `id`, `github_id`, `push_goal`
(`INT CHECK (push_goal > 0)`), `discord_webhook_url` (nullable),
`annoy_time` (nullable, an `HH:MM` string). -/
structure User where
  id : Nat
  github_id : Int
  push_goal : Int
  discord_webhook_url : Option String
  annoy_time : Option String
deriving DecidableEq, Repr

/-- A row of the `github_counter` table: `id`, `user_id`, `date`,
`push_counter` (default 1) and the `is_job_done` flag used by the sweep
(default false on insert). -/
structure CounterRow where
  id : Nat
  user_id : Nat
  date : String
  push_counter : Int
  is_job_done : Bool
deriving DecidableEq, Repr

/-- The persistent state: the `users` and `github_counter` tables, plus the
next fresh counter id for inserts. -/
structure Store where
  users : List User
  counters : List CounterRow
  nextCounterId : Nat
deriving DecidableEq, Repr

/-- The two message texts the sweep can post to a Discord webhook URL:
the congratulation and the reminder. -/
inductive MsgKind where
  | congrats
  | reminder
deriving DecidableEq, Repr

/-- Observable actions of one sweep, in execution order: a store write
setting `is_job_done = true` on a counter row, or a delivery attempt
(`axios.post` to the user's webhook URL) with its success bit. -/
inductive Event where
  | flagSet (counterId : Nat) (userId : Nat)
  | send (userId : Nat) (url : String) (kind : MsgKind) (delivered : Bool)
deriving DecidableEq, Repr

/-- The user an event concerns. -/
def eventUser : Event → Nat
  | Event.flagSet _ uid => uid
  | Event.send uid _ _ _ => uid

/-- Result of one sweep: the store after it, the trace of events it
performed, and whether it was cut short by a rejected delivery
(the unguarded `await axios.post` throwing out of the loop). -/
structure SweepResult where
  store : Store
  events : List Event
  aborted : Bool
deriving DecidableEq, Repr

/-- Lexicographic comparison of character lists, the order the store applies
to two zero-padded `HH:MM` strings. -/
def charsLe : List Char → List Char → Bool
  | [], _ => true
  | _ :: _, [] => false
  | a :: as, b :: bs => if a = b then charsLe as bs else decide (a < b)

/-- The `annoy_time <= now` comparison: both operands are zero-padded
`HH:MM` strings, compared lexicographically. -/
def timeLe (a b : String) : Bool := charsLe a.data b.data

/-- The user selection query of `checkPushGoals`:
`select ... from users where discord_webhook_url is not null and
annoy_time is not null and annoy_time <= now`. -/
def usersDue (s : Store) (now : String) : List User :=
  s.users.filter fun u =>
    match u.discord_webhook_url, u.annoy_time with
    | some _, some t => timeLe t now
    | _, _ => false

/-- The counter fetch of `checkPushGoals`:
`select ... from github_counter where date = today and user_id in ids`. -/
def countersFor (s : Store) (today : String) (ids : List Nat) : List CounterRow :=
  s.counters.filter fun c => c.date == today && ids.contains c.user_id

/-- `counterMap.get(user.id)` where `counterMap = new Map(counters.map(c =>
[c.user_id, c]))`: a JS `Map` built from an entry list keeps the last entry
for each key, so the lookup returns the last fetched row for the user. -/
def counterLookup (cs : List CounterRow) (uid : Nat) : Option CounterRow :=
  cs.reverse.find? fun c => c.user_id == uid

/-- `supabase.from('github_counter').update({is_job_done: true}).eq('id', cid)`. -/
def setJobDone (s : Store) (cid : Nat) : Store :=
  { s with counters := s.counters.map fun c =>
      if c.id == cid then { c with is_job_done := true } else c }

/-- The per-user loop of `checkPushGoals`.  For each user in order: skip if
the fetched counter has `is_job_done`; otherwise compute
`pushCount = counter?.push_counter || 0` and `goalMet = pushCount >=
user.push_goal`; if `goalMet && counter` set the flag on the row; then
attempt the Discord post.  A rejected post throws out of the loop, so the
remaining users are not processed (`aborted = true`). -/
def sweepLoop (d : Nat → Bool) (cs : List CounterRow) : List User → Store → SweepResult
  | [], s => { store := s, events := [], aborted := false }
  | u :: rest, s =>
    match counterLookup cs u.id with
    | some c =>
      if c.is_job_done then sweepLoop d cs rest s
      else
        let goalMet : Bool := decide (u.push_goal ≤ c.push_counter)
        let s1 := if goalMet then setJobDone s c.id else s
        let ok := d u.id
        let ev := Event.send u.id (u.discord_webhook_url.getD "")
          (if goalMet then MsgKind.congrats else MsgKind.reminder) ok
        let evs := if goalMet then [Event.flagSet c.id u.id, ev] else [ev]
        if ok then
          let r := sweepLoop d cs rest s1
          { store := r.store, events := evs ++ r.events, aborted := r.aborted }
        else { store := s1, events := evs, aborted := true }
    | none =>
      let goalMet : Bool := decide (u.push_goal ≤ 0)
      let ok := d u.id
      let ev := Event.send u.id (u.discord_webhook_url.getD "")
        (if goalMet then MsgKind.congrats else MsgKind.reminder) ok
      if ok then
        let r := sweepLoop d cs rest s
        { store := r.store, events := ev :: r.events, aborted := r.aborted }
      else { store := s, events := [ev], aborted := true }

/-- One sweep (`checkPushGoals`): select the due users, fetch today's
counters for them, then run the per-user loop.  `d uid` tells whether the
Discord post for user `uid` succeeds during this sweep. -/
def checkPushGoals (s : Store) (today now : String) (d : Nat → Bool) : SweepResult :=
  let users := usersDue s now
  let cs := countersFor s today (users.map User.id)
  sweepLoop d cs users s

/-- Run a sweep at each of a list of clock times within one date, threading
the store; returns the final store and each sweep's event trace. -/
def runSweeps (s : Store) (today : String) (times : List String) (d : Nat → Bool) :
    Store × List (List Event) :=
  match times with
  | [] => (s, [])
  | t :: rest =>
    let r := checkPushGoals s today t d
    let p := runSweeps r.store today rest d
    (p.1, r.events :: p.2)

/-- Modelled from the spec: the `increment_push_counter` Postgres RPC called
by the webhook route is not part of the repository source (only its caller
is).  Per the spec it is an atomic upsert on the daily counter for
(user, today): increment `push_count` by 1 if a row for today exists, else
insert a row with `push_count = 1`; `is_job_done` starts false on insert and
is never touched by the increment. -/
def incrementPushCounter (s : Store) (uid : Nat) (today : String) : Store :=
  if s.counters.filter (fun c => c.user_id == uid && c.date == today) = [] then
    { s with
      counters := s.counters ++
        [{ id := s.nextCounterId, user_id := uid, date := today,
           push_counter := 1, is_job_done := false }],
      nextCounterId := s.nextCounterId + 1 }
  else
    { s with counters := s.counters.map fun c =>
        if c.user_id == uid && c.date == today then
          { c with push_counter := c.push_counter + 1 }
        else c }

/-- Sequential composition of `n` atomic counter increments: any
interleaving of `n` concurrent webhook deliveries serialises into this,
because each increment is a single atomic store operation. -/
def iterWebhook (n : Nat) (s : Store) (uid : Nat) (today : String) : Store :=
  match n with
  | 0 => s
  | m + 1 => incrementPushCounter (iterWebhook m s uid today) uid today

/-- The user lookup of the webhook route:
`select id from users where github_id = sender.id` with `.single()`.
A `none` sender id (the payload had no numeric `sender.id`) matches no row. -/
def findUserByGithubId (s : Store) : Option Int → Option User
  | none => none
  | some gid => s.users.find? fun u => u.github_id == gid

/-- Outcome of the webhook handler: either an HTTP response with the store
as it then stands, or a thrown JS exception (`crashed`), carrying the store
untouched since no write had happened. -/
inductive WebhookOutcome where
  | crashed (store : Store)
  | responded (status : Nat) (store : Store)
deriving DecidableEq, Repr

/-- The `POST /api/gitwebhook` handler.  `digest` is `hmac.digest('hex')`
for the raw body under the shared secret; `signature` the
`X-Hub-Signature-256` header; `parsed` the result of
`JSON.parse(body).sender.id` (`Except.error` models a JS throw there);
`rpcOk` whether the store RPC succeeds.  `crypto.timingSafeEqual` throws on
buffers of different byte length, and `Buffer.from(undefined)` throws when
the header is absent, so those paths crash rather than respond. -/
def gitwebhook (store : Store) (digest : String) (signature : Option String)
    (parsed : Except Unit (Option Int)) (today : String) (rpcOk : Bool) :
    WebhookOutcome :=
  let ourSignature := "sha256=" ++ digest
  match signature with
  | none => WebhookOutcome.crashed store
  | some sig =>
    if sig.utf8ByteSize ≠ ourSignature.utf8ByteSize then WebhookOutcome.crashed store
    else if sig ≠ ourSignature then WebhookOutcome.responded 401 store
    else
      match parsed with
      | Except.error _ => WebhookOutcome.crashed store
      | Except.ok senderId =>
        match findUserByGithubId store senderId with
        | none => WebhookOutcome.responded 404 store
        | some u =>
          if rpcOk then
            WebhookOutcome.responded 200 (incrementPushCounter store u.id today)
          else WebhookOutcome.responded 500 store

/-- The rows of the counter table for one (user, date) key. -/
def keyFilter (s : Store) (uid : Nat) (today : String) : List CounterRow :=
  s.counters.filter fun c => c.user_id == uid && c.date == today

/-- The `pushCount = counter?.push_counter || 0` expression of the sweep. -/
def pushCountOf (cs : List CounterRow) (uid : Nat) : Int :=
  ((counterLookup cs uid).map CounterRow.push_counter).getD 0

/-- Whether the sweep skips a user: the fetched counter exists and already
has `is_job_done` (`if (counter?.is_job_done) continue`). -/
def isSkipped (cs : List CounterRow) (u : User) : Bool :=
  match counterLookup cs u.id with
  | some c => c.is_job_done
  | none => false

/-- Checks an event trace for the goal-met discipline: every congratulatory
delivery attempt is immediately preceded by the `is_job_done` write for the
same user, and never appears bare. -/
def congratsFlagged : List Event → Bool
  | [] => true
  | Event.flagSet _ u :: Event.send u2 _ MsgKind.congrats _ :: rest =>
    u == u2 && congratsFlagged rest
  | Event.send _ _ MsgKind.congrats _ :: _ => false
  | _ :: rest => congratsFlagged rest

/-- Frame relation between a counter row before and after a sweep: every
field except `is_job_done` is unchanged, and `is_job_done` can only go from
false to true (never reset). -/
def counterFrame (c0 c1 : CounterRow) : Prop :=
  c1.id = c0.id ∧ c1.user_id = c0.user_id ∧ c1.date = c0.date ∧
  c1.push_counter = c0.push_counter ∧ (c0.is_job_done = true → c1.is_job_done = true)

/-! ## Helper lemmas -/

theorem counterFrame_refl (c : CounterRow) : counterFrame c c :=
  ⟨rfl, rfl, rfl, rfl, fun h => h⟩

theorem counterFrame_trans {a b c : CounterRow} (h1 : counterFrame a b)
    (h2 : counterFrame b c) : counterFrame a c := by
  obtain ⟨i1, u1, d1, p1, f1⟩ := h1
  obtain ⟨i2, u2, d2, p2, f2⟩ := h2
  exact ⟨i2.trans i1, u2.trans u1, d2.trans d1, p2.trans p1, fun h => f2 (f1 h)⟩

theorem forall2_frame_refl (l : List CounterRow) : List.Forall₂ counterFrame l l :=
  List.forall₂_same.mpr fun c _ => counterFrame_refl c

theorem forall2_frame_trans {l1 l2 l3 : List CounterRow}
    (h1 : List.Forall₂ counterFrame l1 l2) (h2 : List.Forall₂ counterFrame l2 l3) :
    List.Forall₂ counterFrame l1 l3 := by
  induction h1 generalizing l3 with
  | nil => cases h2; exact List.Forall₂.nil
  | cons hab htail ih =>
    cases h2 with
    | cons hbc htail2 => exact List.Forall₂.cons (counterFrame_trans hab hbc) (ih htail2)

theorem forall2_mem_left {R : CounterRow → CounterRow → Prop} {l1 l2 : List CounterRow}
    (h : List.Forall₂ R l1 l2) {a : CounterRow} (ha : a ∈ l1) :
    ∃ b ∈ l2, R a b := by
  induction h with
  | nil => cases ha
  | cons hab _ ih =>
    rcases List.mem_cons.mp ha with rfl | ha2
    · exact ⟨_, List.mem_cons_self _ _, hab⟩
    · obtain ⟨b, hb, hr⟩ := ih ha2
      exact ⟨b, List.mem_cons_of_mem _ hb, hr⟩

theorem forall2_mem_right {R : CounterRow → CounterRow → Prop} {l1 l2 : List CounterRow}
    (h : List.Forall₂ R l1 l2) {b : CounterRow} (hb : b ∈ l2) :
    ∃ a ∈ l1, R a b := by
  induction h with
  | nil => cases hb
  | cons hab _ ih =>
    rcases List.mem_cons.mp hb with rfl | hb2
    · exact ⟨_, List.mem_cons_self _ _, hab⟩
    · obtain ⟨a, ha, hr⟩ := ih hb2
      exact ⟨a, List.mem_cons_of_mem _ ha, hr⟩

theorem frame_keys {l1 l2 : List CounterRow} (h : List.Forall₂ counterFrame l1 l2) :
    l2.map (fun c => (c.user_id, c.date)) = l1.map (fun c => (c.user_id, c.date)) := by
  induction h with
  | nil => rfl
  | cons hab _ ih =>
    obtain ⟨_, hu, hd, _, _⟩ := hab
    simp [ih, hu, hd]

theorem setJobDone_frame (s : Store) (cid : Nat) :
    List.Forall₂ counterFrame s.counters (setJobDone s cid).counters := by
  rw [setJobDone, List.forall₂_map_right_iff]
  refine List.forall₂_same.mpr fun c _ => ?_
  by_cases h : c.id == cid
  · simp only [h, if_pos]
    exact ⟨rfl, rfl, rfl, rfl, fun _ => rfl⟩
  · simp only [h, Bool.false_eq_true, if_neg, if_false]
    exact counterFrame_refl c

theorem setJobDone_users (s : Store) (cid : Nat) : (setJobDone s cid).users = s.users := rfl

theorem setJobDone_done (s : Store) (cid : Nat) :
    ∀ c ∈ (setJobDone s cid).counters, c.id = cid → c.is_job_done = true := by
  intro c hc hid
  rw [setJobDone] at hc
  simp only [List.mem_map] at hc
  obtain ⟨c0, _, hc0⟩ := hc
  by_cases h : c0.id == cid
  · rw [if_pos h] at hc0; rw [← hc0]
  · rw [if_neg (by simpa using h)] at hc0
    subst hc0
    exact absurd (by simpa using hid) (by simpa using h)

theorem sweepLoop_nil (d : Nat → Bool) (cs : List CounterRow) (s : Store) :
    sweepLoop d cs [] s = { store := s, events := [], aborted := false } := rfl

theorem sweepLoop_cons_skip (d : Nat → Bool) (cs : List CounterRow) (u : User)
    (rest : List User) (s : Store) (c : CounterRow)
    (hcl : counterLookup cs u.id = some c) (hdone : c.is_job_done = true) :
    sweepLoop d cs (u :: rest) s = sweepLoop d cs rest s := by
  simp [sweepLoop, hcl, hdone]

theorem sweepLoop_cons_goal_ok (d : Nat → Bool) (cs : List CounterRow) (u : User)
    (rest : List User) (s : Store) (c : CounterRow)
    (hcl : counterLookup cs u.id = some c) (hdone : c.is_job_done = false)
    (hg : u.push_goal ≤ c.push_counter) (hok : d u.id = true) :
    sweepLoop d cs (u :: rest) s =
      { store := (sweepLoop d cs rest (setJobDone s c.id)).store,
        events := Event.flagSet c.id u.id ::
          Event.send u.id (u.discord_webhook_url.getD "") MsgKind.congrats true ::
          (sweepLoop d cs rest (setJobDone s c.id)).events,
        aborted := (sweepLoop d cs rest (setJobDone s c.id)).aborted } := by
  simp [sweepLoop, hcl, hdone, hg, hok]

theorem sweepLoop_cons_goal_fail (d : Nat → Bool) (cs : List CounterRow) (u : User)
    (rest : List User) (s : Store) (c : CounterRow)
    (hcl : counterLookup cs u.id = some c) (hdone : c.is_job_done = false)
    (hg : u.push_goal ≤ c.push_counter) (hok : d u.id = false) :
    sweepLoop d cs (u :: rest) s =
      { store := setJobDone s c.id,
        events := [Event.flagSet c.id u.id,
          Event.send u.id (u.discord_webhook_url.getD "") MsgKind.congrats false],
        aborted := true } := by
  simp [sweepLoop, hcl, hdone, hg, hok]

theorem sweepLoop_cons_rem_ok (d : Nat → Bool) (cs : List CounterRow) (u : User)
    (rest : List User) (s : Store) (c : CounterRow)
    (hcl : counterLookup cs u.id = some c) (hdone : c.is_job_done = false)
    (hg : ¬ u.push_goal ≤ c.push_counter) (hok : d u.id = true) :
    sweepLoop d cs (u :: rest) s =
      { store := (sweepLoop d cs rest s).store,
        events := Event.send u.id (u.discord_webhook_url.getD "") MsgKind.reminder true ::
          (sweepLoop d cs rest s).events,
        aborted := (sweepLoop d cs rest s).aborted } := by
  simp [sweepLoop, hcl, hdone, hg, hok]

theorem sweepLoop_cons_rem_fail (d : Nat → Bool) (cs : List CounterRow) (u : User)
    (rest : List User) (s : Store) (c : CounterRow)
    (hcl : counterLookup cs u.id = some c) (hdone : c.is_job_done = false)
    (hg : ¬ u.push_goal ≤ c.push_counter) (hok : d u.id = false) :
    sweepLoop d cs (u :: rest) s =
      { store := s,
        events := [Event.send u.id (u.discord_webhook_url.getD "") MsgKind.reminder false],
        aborted := true } := by
  simp [sweepLoop, hcl, hdone, hg, hok]

theorem sweepLoop_cons_none_ok (d : Nat → Bool) (cs : List CounterRow) (u : User)
    (rest : List User) (s : Store)
    (hcl : counterLookup cs u.id = none) (hok : d u.id = true) :
    sweepLoop d cs (u :: rest) s =
      { store := (sweepLoop d cs rest s).store,
        events := Event.send u.id (u.discord_webhook_url.getD "")
            (if decide (u.push_goal ≤ 0) then MsgKind.congrats else MsgKind.reminder) true ::
          (sweepLoop d cs rest s).events,
        aborted := (sweepLoop d cs rest s).aborted } := by
  simp [sweepLoop, hcl, hok]

theorem sweepLoop_cons_none_fail (d : Nat → Bool) (cs : List CounterRow) (u : User)
    (rest : List User) (s : Store)
    (hcl : counterLookup cs u.id = none) (hok : d u.id = false) :
    sweepLoop d cs (u :: rest) s =
      { store := s,
        events := [Event.send u.id (u.discord_webhook_url.getD "")
          (if decide (u.push_goal ≤ 0) then MsgKind.congrats else MsgKind.reminder) false],
        aborted := true } := by
  simp [sweepLoop, hcl, hok]

theorem sweepLoop_store_inv (d : Nat → Bool) (cs : List CounterRow) :
    ∀ us (s : Store),
      List.Forall₂ counterFrame s.counters (sweepLoop d cs us s).store.counters ∧
      (sweepLoop d cs us s).store.users = s.users ∧
      (sweepLoop d cs us s).store.nextCounterId = s.nextCounterId := by
  intro us
  induction us with
  | nil => intro s; rw [sweepLoop_nil]; exact ⟨forall2_frame_refl _, rfl, rfl⟩
  | cons u rest ih =>
    intro s
    cases hcl : counterLookup cs u.id with
    | none =>
      cases hok : d u.id with
      | true => rw [sweepLoop_cons_none_ok d cs u rest s hcl hok]; exact ih s
      | false =>
        rw [sweepLoop_cons_none_fail d cs u rest s hcl hok]
        exact ⟨forall2_frame_refl _, rfl, rfl⟩
    | some c =>
      cases hdone : c.is_job_done with
      | true => rw [sweepLoop_cons_skip d cs u rest s c hcl hdone]; exact ih s
      | false =>
        by_cases hg : u.push_goal ≤ c.push_counter
        · cases hok : d u.id with
          | true =>
            rw [sweepLoop_cons_goal_ok d cs u rest s c hcl hdone hg hok]
            obtain ⟨h1, h2, h3⟩ := ih (setJobDone s c.id)
            exact ⟨forall2_frame_trans (setJobDone_frame s c.id) h1, h2, h3⟩
          | false =>
            rw [sweepLoop_cons_goal_fail d cs u rest s c hcl hdone hg hok]
            exact ⟨setJobDone_frame s c.id, rfl, rfl⟩
        · cases hok : d u.id with
          | true => rw [sweepLoop_cons_rem_ok d cs u rest s c hcl hdone hg hok]; exact ih s
          | false =>
            rw [sweepLoop_cons_rem_fail d cs u rest s c hcl hdone hg hok]
            exact ⟨forall2_frame_refl _, rfl, rfl⟩

theorem sweepLoop_event_users (d : Nat → Bool) (cs : List CounterRow) :
    ∀ us (s : Store), ∀ e ∈ (sweepLoop d cs us s).events, ∃ u, u ∈ us ∧ eventUser e = u.id := by
  intro us
  induction us with
  | nil => intro s e he; rw [sweepLoop_nil] at he; cases he
  | cons u rest ih =>
    intro s e he
    have step : ∀ u', u' ∈ rest ∧ eventUser e = u'.id → ∃ v, v ∈ u :: rest ∧ eventUser e = v.id :=
      fun u' h => ⟨u', List.mem_cons_of_mem _ h.1, h.2⟩
    cases hcl : counterLookup cs u.id with
    | none =>
      cases hok : d u.id with
      | true =>
        rw [sweepLoop_cons_none_ok d cs u rest s hcl hok] at he
        rcases List.mem_cons.mp he with rfl | he2
        · exact ⟨u, List.mem_cons_self _ _, rfl⟩
        · obtain ⟨u', h1, h2⟩ := ih s e he2; exact step u' ⟨h1, h2⟩
      | false =>
        rw [sweepLoop_cons_none_fail d cs u rest s hcl hok] at he
        rcases List.mem_cons.mp he with rfl | he2
        · exact ⟨u, List.mem_cons_self _ _, rfl⟩
        · cases he2
    | some c =>
      cases hdone : c.is_job_done with
      | true =>
        rw [sweepLoop_cons_skip d cs u rest s c hcl hdone] at he
        obtain ⟨u', h1, h2⟩ := ih s e he; exact step u' ⟨h1, h2⟩
      | false =>
        by_cases hg : u.push_goal ≤ c.push_counter
        · cases hok : d u.id with
          | true =>
            rw [sweepLoop_cons_goal_ok d cs u rest s c hcl hdone hg hok] at he
            rcases List.mem_cons.mp he with rfl | he2
            · exact ⟨u, List.mem_cons_self _ _, rfl⟩
            · rcases List.mem_cons.mp he2 with rfl | he3
              · exact ⟨u, List.mem_cons_self _ _, rfl⟩
              · obtain ⟨u', h1, h2⟩ := ih (setJobDone s c.id) e he3; exact step u' ⟨h1, h2⟩
          | false =>
            rw [sweepLoop_cons_goal_fail d cs u rest s c hcl hdone hg hok] at he
            rcases List.mem_cons.mp he with rfl | he2
            · exact ⟨u, List.mem_cons_self _ _, rfl⟩
            · rcases List.mem_cons.mp he2 with rfl | he3
              · exact ⟨u, List.mem_cons_self _ _, rfl⟩
              · cases he3
        · cases hok : d u.id with
          | true =>
            rw [sweepLoop_cons_rem_ok d cs u rest s c hcl hdone hg hok] at he
            rcases List.mem_cons.mp he with rfl | he2
            · exact ⟨u, List.mem_cons_self _ _, rfl⟩
            · obtain ⟨u', h1, h2⟩ := ih s e he2; exact step u' ⟨h1, h2⟩
          | false =>
            rw [sweepLoop_cons_rem_fail d cs u rest s c hcl hdone hg hok] at he
            rcases List.mem_cons.mp he with rfl | he2
            · exact ⟨u, List.mem_cons_self _ _, rfl⟩
            · cases he2

theorem sweepLoop_silent_of_done (d : Nat → Bool) (cs : List CounterRow) (uid : Nat)
    (c : CounterRow) (hcl : counterLookup cs uid = some c) (hdone : c.is_job_done = true) :
    ∀ us (s : Store), ∀ e ∈ (sweepLoop d cs us s).events, eventUser e ≠ uid := by
  intro us
  induction us with
  | nil => intro s e he; rw [sweepLoop_nil] at he; cases he
  | cons u rest ih =>
    intro s e he
    by_cases him : u.id = uid
    · rw [sweepLoop_cons_skip d cs u rest s c (him ▸ hcl) hdone] at he
      exact ih s e he
    · cases hcl2 : counterLookup cs u.id with
      | none =>
        cases hok : d u.id with
        | true =>
          rw [sweepLoop_cons_none_ok d cs u rest s hcl2 hok] at he
          rcases List.mem_cons.mp he with rfl | he2
          · simpa [eventUser] using him
          · exact ih s e he2
        | false =>
          rw [sweepLoop_cons_none_fail d cs u rest s hcl2 hok] at he
          rcases List.mem_cons.mp he with rfl | he2
          · simpa [eventUser] using him
          · cases he2
      | some c2 =>
        cases hdone2 : c2.is_job_done with
        | true =>
          rw [sweepLoop_cons_skip d cs u rest s c2 hcl2 hdone2] at he
          exact ih s e he
        | false =>
          by_cases hg : u.push_goal ≤ c2.push_counter
          · cases hok : d u.id with
            | true =>
              rw [sweepLoop_cons_goal_ok d cs u rest s c2 hcl2 hdone2 hg hok] at he
              rcases List.mem_cons.mp he with rfl | he2
              · simpa [eventUser] using him
              · rcases List.mem_cons.mp he2 with rfl | he3
                · simpa [eventUser] using him
                · exact ih (setJobDone s c2.id) e he3
            | false =>
              rw [sweepLoop_cons_goal_fail d cs u rest s c2 hcl2 hdone2 hg hok] at he
              rcases List.mem_cons.mp he with rfl | he2
              · simpa [eventUser] using him
              · rcases List.mem_cons.mp he2 with rfl | he3
                · simpa [eventUser] using him
                · cases he3
          · cases hok : d u.id with
            | true =>
              rw [sweepLoop_cons_rem_ok d cs u rest s c2 hcl2 hdone2 hg hok] at he
              rcases List.mem_cons.mp he with rfl | he2
              · simpa [eventUser] using him
              · exact ih s e he2
            | false =>
              rw [sweepLoop_cons_rem_fail d cs u rest s c2 hcl2 hdone2 hg hok] at he
              rcases List.mem_cons.mp he with rfl | he2
              · simpa [eventUser] using him
              · cases he2

theorem sweepLoop_append (d : Nat → Bool) (cs : List CounterRow) :
    ∀ xs ys (s : Store),
      sweepLoop d cs (xs ++ ys) s =
        (if (sweepLoop d cs xs s).aborted then sweepLoop d cs xs s
         else
          { store := (sweepLoop d cs ys (sweepLoop d cs xs s).store).store,
            events := (sweepLoop d cs xs s).events ++
              (sweepLoop d cs ys (sweepLoop d cs xs s).store).events,
            aborted := (sweepLoop d cs ys (sweepLoop d cs xs s).store).aborted }) := by
  intro xs
  induction xs with
  | nil => intro ys s; simp [sweepLoop_nil]
  | cons u rest ih =>
    intro ys s
    cases hcl : counterLookup cs u.id with
    | none =>
      cases hok : d u.id with
      | true =>
        rw [List.cons_append, sweepLoop_cons_none_ok d cs u (rest ++ ys) s hcl hok,
          sweepLoop_cons_none_ok d cs u rest s hcl hok, ih ys s]
        cases hab : (sweepLoop d cs rest s).aborted with
        | true => simp [hab]
        | false => simp [hab]
      | false =>
        rw [List.cons_append, sweepLoop_cons_none_fail d cs u (rest ++ ys) s hcl hok,
          sweepLoop_cons_none_fail d cs u rest s hcl hok]
        simp
    | some c =>
      cases hdone : c.is_job_done with
      | true =>
        rw [List.cons_append, sweepLoop_cons_skip d cs u (rest ++ ys) s c hcl hdone,
          sweepLoop_cons_skip d cs u rest s c hcl hdone, ih ys s]
      | false =>
        by_cases hg : u.push_goal ≤ c.push_counter
        · cases hok : d u.id with
          | true =>
            rw [List.cons_append, sweepLoop_cons_goal_ok d cs u (rest ++ ys) s c hcl hdone hg hok,
              sweepLoop_cons_goal_ok d cs u rest s c hcl hdone hg hok, ih ys (setJobDone s c.id)]
            cases hab : (sweepLoop d cs rest (setJobDone s c.id)).aborted with
            | true => simp [hab]
            | false => simp [hab]
          | false =>
            rw [List.cons_append, sweepLoop_cons_goal_fail d cs u (rest ++ ys) s c hcl hdone hg hok,
              sweepLoop_cons_goal_fail d cs u rest s c hcl hdone hg hok]
            simp
        · cases hok : d u.id with
          | true =>
            rw [List.cons_append, sweepLoop_cons_rem_ok d cs u (rest ++ ys) s c hcl hdone hg hok,
              sweepLoop_cons_rem_ok d cs u rest s c hcl hdone hg hok, ih ys s]
            cases hab : (sweepLoop d cs rest s).aborted with
            | true => simp [hab]
            | false => simp [hab]
          | false =>
            rw [List.cons_append, sweepLoop_cons_rem_fail d cs u (rest ++ ys) s c hcl hdone hg hok,
              sweepLoop_cons_rem_fail d cs u rest s c hcl hdone hg hok]
            simp

theorem sweepLoop_cons_of_fail (d : Nat → Bool) (cs : List CounterRow) (u : User)
    (hskip : isSkipped cs u = false) (hfail : d u.id = false) :
    ∀ post (s : Store), sweepLoop d cs (u :: post) s = sweepLoop d cs [u] s ∧
      (sweepLoop d cs [u] s).aborted = true := by
  intro post s
  cases hcl : counterLookup cs u.id with
  | none =>
    rw [sweepLoop_cons_none_fail d cs u post s hcl hfail,
      sweepLoop_cons_none_fail d cs u [] s hcl hfail]
    exact ⟨rfl, rfl⟩
  | some c =>
    have hdone : c.is_job_done = false := by
      have := hskip
      rw [isSkipped, hcl] at this
      exact this
    by_cases hg : u.push_goal ≤ c.push_counter
    · rw [sweepLoop_cons_goal_fail d cs u post s c hcl hdone hg hfail,
        sweepLoop_cons_goal_fail d cs u [] s c hcl hdone hg hfail]
      exact ⟨rfl, rfl⟩
    · rw [sweepLoop_cons_rem_fail d cs u post s c hcl hdone hg hfail,
        sweepLoop_cons_rem_fail d cs u [] s c hcl hdone hg hfail]
      exact ⟨rfl, rfl⟩

theorem sweepLoop_mem_of_deliver (d : Nat → Bool) (cs : List CounterRow)
    (hd : ∀ n, d n = true) (u : User) (hcl : counterLookup cs u.id = none) :
    ∀ us (s : Store), u ∈ us →
      Event.send u.id (u.discord_webhook_url.getD "")
        (if decide (u.push_goal ≤ 0) then MsgKind.congrats else MsgKind.reminder) true
        ∈ (sweepLoop d cs us s).events := by
  intro us
  induction us with
  | nil => intro s hu; cases hu
  | cons v rest ih =>
    intro s hu
    rcases List.mem_cons.mp hu with rfl | hu2
    · rw [sweepLoop_cons_none_ok d cs u rest s hcl (hd u.id)]
      exact List.mem_cons_self _ _
    · cases hcl2 : counterLookup cs v.id with
      | none =>
        rw [sweepLoop_cons_none_ok d cs v rest s hcl2 (hd v.id)]
        exact List.mem_cons_of_mem _ (ih s hu2)
      | some c2 =>
        cases hdone2 : c2.is_job_done with
        | true =>
          rw [sweepLoop_cons_skip d cs v rest s c2 hcl2 hdone2]
          exact ih s hu2
        | false =>
          by_cases hg : v.push_goal ≤ c2.push_counter
          · rw [sweepLoop_cons_goal_ok d cs v rest s c2 hcl2 hdone2 hg (hd v.id)]
            exact List.mem_cons_of_mem _ (List.mem_cons_of_mem _ (ih (setJobDone s c2.id) hu2))
          · rw [sweepLoop_cons_rem_ok d cs v rest s c2 hcl2 hdone2 hg (hd v.id)]
            exact List.mem_cons_of_mem _ (ih s hu2)

theorem eventUser_flagSet (cid uid : Nat) : eventUser (Event.flagSet cid uid) = uid := rfl

theorem eventUser_send (uid : Nat) (url : String) (k : MsgKind) (b : Bool) :
    eventUser (Event.send uid url k b) = uid := rfl

theorem events_filter_nil_of_ids (u : User) (rest : List User) (r : SweepResult)
    (hr : ∀ e ∈ r.events, ∃ v, v ∈ rest ∧ eventUser e = v.id)
    (hnin : u.id ∉ rest.map User.id) :
    r.events.filter (fun e => eventUser e == u.id) = [] := by
  rw [List.filter_eq_nil_iff]
  intro e he
  obtain ⟨v, hv, hev⟩ := hr e he
  simp only [Bool.not_eq_true, beq_eq_false_iff_ne, ne_eq, hev]
  intro hvid
  exact hnin (List.mem_map.mpr ⟨v, hv, hvid⟩)

theorem sweepLoop_goal_met_filter (d : Nat → Bool) (cs : List CounterRow) (u : User)
    (c : CounterRow) (hcl : counterLookup cs u.id = some c) (hdone : c.is_job_done = false)
    (hg : u.push_goal ≤ c.push_counter) :
    ∀ us (s : Store), (us.map User.id).Nodup → u ∈ us →
      ((sweepLoop d cs us s).events.filter (fun e => eventUser e == u.id) = [] ∨
       ((sweepLoop d cs us s).events.filter (fun e => eventUser e == u.id) =
          [Event.flagSet c.id u.id,
           Event.send u.id (u.discord_webhook_url.getD "") MsgKind.congrats (d u.id)] ∧
        ∀ c2 ∈ (sweepLoop d cs us s).store.counters, c2.id = c.id → c2.is_job_done = true)) := by
  intro us
  induction us with
  | nil => intro s _ hu; cases hu
  | cons v rest ih =>
    intro s hnodup hu
    have hnodup2 : (rest.map User.id).Nodup := by
      rw [List.map_cons, List.nodup_cons] at hnodup
      exact hnodup.2
    have hvnin : v.id ∉ rest.map User.id := by
      rw [List.map_cons, List.nodup_cons] at hnodup
      exact hnodup.1
    by_cases hv : v.id = u.id
    · have huv : u = v := by
        rcases List.mem_cons.mp hu with rfl | hu2
        · rfl
        · exact absurd (hv ▸ List.mem_map.mpr ⟨u, hu2, rfl⟩) hvnin
      subst huv
      cases hok : d u.id with
      | true =>
        rw [sweepLoop_cons_goal_ok d cs u rest s c hcl hdone hg hok]
        right
        constructor
        · have htail : (sweepLoop d cs rest (setJobDone s c.id)).events.filter
              (fun e => eventUser e == u.id) = [] :=
            events_filter_nil_of_ids u rest _
              (fun e he => sweepLoop_event_users d cs rest _ e he) (hv ▸ hvnin)
          simp [List.filter_cons, eventUser_flagSet, eventUser_send, htail]
        · intro c2 hc2 hid
          obtain ⟨hf, _, _⟩ := sweepLoop_store_inv d cs rest (setJobDone s c.id)
          obtain ⟨a, ha, haf⟩ := forall2_mem_right hf hc2
          exact haf.2.2.2.2 (setJobDone_done s c.id a ha (haf.1.symm.trans hid))
      | false =>
        rw [sweepLoop_cons_goal_fail d cs u rest s c hcl hdone hg hok]
        right
        constructor
        · simp [List.filter_cons, eventUser, hok]
        · intro c2 hc2 hid
          exact setJobDone_done s c.id c2 hc2 hid
    · have hu2 : u ∈ rest := by
        rcases List.mem_cons.mp hu with rfl | hu2
        · exact absurd rfl hv
        · exact hu2
      cases hcl2 : counterLookup cs v.id with
      | none =>
        cases hok : d v.id with
        | true =>
          rw [sweepLoop_cons_none_ok d cs v rest s hcl2 hok]
          simpa [List.filter_cons, eventUser_send, hv] using ih s hnodup2 hu2
        | false =>
          rw [sweepLoop_cons_none_fail d cs v rest s hcl2 hok]
          left
          simp [List.filter_cons, eventUser_send, hv]
      | some c2 =>
        cases hdone2 : c2.is_job_done with
        | true =>
          rw [sweepLoop_cons_skip d cs v rest s c2 hcl2 hdone2]
          exact ih s hnodup2 hu2
        | false =>
          by_cases hg2 : v.push_goal ≤ c2.push_counter
          · cases hok : d v.id with
            | true =>
              rw [sweepLoop_cons_goal_ok d cs v rest s c2 hcl2 hdone2 hg2 hok]
              simpa [List.filter_cons, eventUser_send, eventUser_flagSet, hv] using
                ih (setJobDone s c2.id) hnodup2 hu2
            | false =>
              rw [sweepLoop_cons_goal_fail d cs v rest s c2 hcl2 hdone2 hg2 hok]
              left
              simp [List.filter_cons, eventUser_send, eventUser_flagSet, hv]
          · cases hok : d v.id with
            | true =>
              rw [sweepLoop_cons_rem_ok d cs v rest s c2 hcl2 hdone2 hg2 hok]
              simpa [List.filter_cons, eventUser_send, hv] using ih s hnodup2 hu2
            | false =>
              rw [sweepLoop_cons_rem_fail d cs v rest s c2 hcl2 hdone2 hg2 hok]
              left
              simp [List.filter_cons, eventUser_send, hv]

theorem counterLookup_countersFor_none (s : Store) (today : String) (ids : List Nat)
    (uid : Nat) (hk : keyFilter s uid today = []) :
    counterLookup (countersFor s today ids) uid = none := by
  rw [counterLookup, List.find?_eq_none]
  intro x hx
  rw [List.mem_reverse, countersFor, List.mem_filter] at hx
  obtain ⟨hxs, hxp⟩ := hx
  intro hxu
  have hxmem : x ∈ keyFilter s uid today := by
    rw [keyFilter, List.mem_filter]
    exact ⟨hxs, by simp [hxu, (Bool.and_eq_true _ _).mp hxp |>.1]⟩
  rw [hk] at hxmem
  cases hxmem

theorem counterLookup_countersFor_done (s : Store) (today : String) (ids : List Nat)
    (uid : Nat) (c : CounterRow)
    (hkeys : (s.counters.map fun x => (x.user_id, x.date)).Nodup)
    (hc : c ∈ s.counters) (hcu : c.user_id = uid) (hcd : c.date = today)
    (hid : uid ∈ ids) :
    counterLookup (countersFor s today ids) uid = some c := by
  have hcmem : c ∈ countersFor s today ids := by
    rw [countersFor, List.mem_filter]
    exact ⟨hc, by simp [hcd, hcu, hid]⟩
  rw [counterLookup]
  cases hfind : (countersFor s today ids).reverse.find? (fun x => x.user_id == uid) with
  | none =>
    exact absurd (by simpa using List.find?_eq_none.mp hfind c (List.mem_reverse.mpr hcmem))
      (by simp [hcu])
  | some c2 =>
    have hc2u : c2.user_id = uid := by simpa using List.find?_some hfind
    have hc2mem : c2 ∈ countersFor s today ids :=
      List.mem_reverse.mp (List.mem_of_find?_eq_some hfind)
    rw [countersFor, List.mem_filter] at hc2mem
    obtain ⟨hc2s, hc2p⟩ := hc2mem
    have hc2d : c2.date = today := by
      have := (Bool.and_eq_true _ _).mp hc2p |>.1
      simpa using this
    have : c2 = c :=
      List.inj_on_of_nodup_map hkeys hc2s hc
        (by rw [hc2u, hc2d, hcu, hcd])
    rw [this]

theorem checkPushGoals_silent_of_done (s : Store) (today now : String) (d : Nat → Bool)
    (uid : Nat) (c : CounterRow)
    (hkeys : (s.counters.map fun x => (x.user_id, x.date)).Nodup)
    (hc : c ∈ s.counters) (hcu : c.user_id = uid) (hcd : c.date = today)
    (hdone : c.is_job_done = true) :
    ∀ e ∈ (checkPushGoals s today now d).events, eventUser e ≠ uid := by
  intro e he
  by_cases hid : uid ∈ (usersDue s now).map User.id
  · have hcl : counterLookup (countersFor s today ((usersDue s now).map User.id)) uid = some c :=
      counterLookup_countersFor_done s today _ uid c hkeys hc hcu hcd hid
    exact sweepLoop_silent_of_done d _ uid c hcl hdone (usersDue s now) s e he
  · intro heu
    obtain ⟨u, hu, hue⟩ := sweepLoop_event_users d _ (usersDue s now) s e he
    exact hid (List.mem_map.mpr ⟨u, hu, by rw [← hue, heu]⟩)

theorem frame_keyFilter_nil {l1 l2 : List CounterRow}
    (h : List.Forall₂ counterFrame l1 l2) (uid : Nat) (today : String)
    (h1 : l1.filter (fun c => c.user_id == uid && c.date == today) = []) :
    l2.filter (fun c => c.user_id == uid && c.date == today) = [] := by
  rw [List.filter_eq_nil_iff] at h1 ⊢
  intro c2 hc2
  obtain ⟨a, ha, haf⟩ := forall2_mem_right h hc2
  have := h1 a ha
  simpa [haf.2.1, haf.2.2.1] using this

theorem checkPushGoals_def (s : Store) (today now : String) (d : Nat → Bool) :
    checkPushGoals s today now d =
      sweepLoop d (countersFor s today ((usersDue s now).map User.id)) (usersDue s now) s := rfl

theorem counterLookup_mem (cs : List CounterRow) (uid : Nat) (c : CounterRow)
    (h : counterLookup cs uid = some c) : c ∈ cs ∧ c.user_id = uid := by
  rw [counterLookup] at h
  exact ⟨List.mem_reverse.mp (List.mem_of_find?_eq_some h), by simpa using List.find?_some h⟩

theorem usersDue_ids_nodup (s : Store) (now : String)
    (h : (s.users.map User.id).Nodup) : ((usersDue s now).map User.id).Nodup :=
  List.Nodup.sublist (List.Sublist.map User.id (List.filter_sublist _)) h

theorem usersDue_sub (s : Store) (now : String) (u : User) (hu : u ∈ usersDue s now) :
    u ∈ s.users := List.mem_of_mem_filter hu

theorem congratsFlagged_pair (cid uid uid2 : Nat) (url : String) (b : Bool)
    (rest : List Event) :
    congratsFlagged (Event.flagSet cid uid :: Event.send uid2 url MsgKind.congrats b :: rest) =
      ((uid == uid2) && congratsFlagged rest) := rfl

theorem congratsFlagged_rem (uid : Nat) (url : String) (b : Bool) (rest : List Event) :
    congratsFlagged (Event.send uid url MsgKind.reminder b :: rest) = congratsFlagged rest := rfl

theorem sweepLoop_congratsFlagged (d : Nat → Bool) (cs : List CounterRow) :
    ∀ us (s : Store), (∀ u ∈ us, 1 ≤ u.push_goal) →
      congratsFlagged (sweepLoop d cs us s).events = true := by
  intro us
  induction us with
  | nil => intro s _; rw [sweepLoop_nil]; rfl
  | cons u rest ih =>
    intro s hall
    have hu : 1 ≤ u.push_goal := hall u (List.mem_cons_self _ _)
    have hrest : ∀ v ∈ rest, 1 ≤ v.push_goal := fun v hv => hall v (List.mem_cons_of_mem _ hv)
    cases hcl : counterLookup cs u.id with
    | none =>
      have hng : decide (u.push_goal ≤ 0) = false := by
        rw [decide_eq_false_iff_not]
        omega
      cases hok : d u.id with
      | true =>
        rw [sweepLoop_cons_none_ok d cs u rest s hcl hok, hng]
        simpa [congratsFlagged_rem] using ih s hrest
      | false =>
        rw [sweepLoop_cons_none_fail d cs u rest s hcl hok, hng]
        simp [congratsFlagged_rem, congratsFlagged]
    | some c =>
      cases hdone : c.is_job_done with
      | true => rw [sweepLoop_cons_skip d cs u rest s c hcl hdone]; exact ih s hrest
      | false =>
        by_cases hg : u.push_goal ≤ c.push_counter
        · cases hok : d u.id with
          | true =>
            rw [sweepLoop_cons_goal_ok d cs u rest s c hcl hdone hg hok]
            dsimp only
            rw [congratsFlagged_pair]
            simp [ih (setJobDone s c.id) hrest]
          | false =>
            rw [sweepLoop_cons_goal_fail d cs u rest s c hcl hdone hg hok]
            dsimp only
            rw [congratsFlagged_pair]
            simp [congratsFlagged]
        · cases hok : d u.id with
          | true =>
            rw [sweepLoop_cons_rem_ok d cs u rest s c hcl hdone hg hok]
            dsimp only
            rw [congratsFlagged_rem]
            exact ih s hrest
          | false =>
            rw [sweepLoop_cons_rem_fail d cs u rest s c hcl hdone hg hok]
            dsimp only
            rw [congratsFlagged_rem]
            rfl

theorem filter_map_keyPreserving (uid : Nat) (today : String) (f : CounterRow → CounterRow)
    (hf : ∀ c, (f c).user_id = c.user_id ∧ (f c).date = c.date) :
    ∀ l : List CounterRow,
      (l.map f).filter (fun c => c.user_id == uid && c.date == today) =
        (l.filter (fun c => c.user_id == uid && c.date == today)).map f := by
  intro l
  induction l with
  | nil => rfl
  | cons a rest ih =>
    rw [List.map_cons, List.filter_cons, List.filter_cons]
    have hk : ((f a).user_id == uid && (f a).date == today) =
        (a.user_id == uid && a.date == today) := by
      rw [(hf a).1, (hf a).2]
    rw [hk]
    cases hcond : (a.user_id == uid && a.date == today) with
    | true => simp [List.map_cons, ih]
    | false => simpa using ih

theorem increment_keyPreserving (uid : Nat) (today : String) :
    ∀ c : CounterRow,
      ((if c.user_id == uid && c.date == today then
          { c with push_counter := c.push_counter + 1 } else c) : CounterRow).user_id = c.user_id ∧
      ((if c.user_id == uid && c.date == today then
          { c with push_counter := c.push_counter + 1 } else c) : CounterRow).date = c.date := by
  intro c
  by_cases h : (c.user_id == uid && c.date == today) = true
  · rw [if_pos h]; exact ⟨rfl, rfl⟩
  · rw [if_neg h]; exact ⟨rfl, rfl⟩

theorem keyFilter_iterWebhook (uid : Nat) (today : String) (s : Store)
    (h0 : keyFilter s uid today = []) :
    ∀ N : Nat, (keyFilter (iterWebhook N s uid today) uid today).map CounterRow.push_counter
      = if N = 0 then [] else [(N : Int)] := by
  intro N
  induction N with
  | zero => simp [iterWebhook, h0]
  | succ M ih =>
    rw [show iterWebhook (M + 1) s uid today =
      incrementPushCounter (iterWebhook M s uid today) uid today from rfl]
    cases hkf : keyFilter (iterWebhook M s uid today) uid today with
    | nil =>
      have hM : M = 0 := by
        by_contra hM
        rw [hkf, if_neg hM] at ih
        simp at ih
      subst hM
      have hs0 : iterWebhook 0 s uid today = s := rfl
      rw [hs0] at hkf ⊢
      rw [incrementPushCounter, if_pos (by unfold keyFilter at hkf; exact hkf)]
      unfold keyFilter
      dsimp only
      rw [List.filter_append]
      unfold keyFilter at hkf
      rw [hkf, List.nil_append, List.filter_cons]
      simp
    | cons c0 tail =>
      have hMne : ¬ M = 0 := by
        intro hM0
        rw [hM0] at ih hkf
        simp at ih
        rw [hkf] at ih
        cases ih
      rw [hkf, if_neg hMne] at ih
      have hc0 : c0.push_counter = (M : Int) ∧ tail = [] := by
        rw [List.map_cons] at ih
        exact ⟨(List.cons.inj ih).1, List.map_eq_nil_iff.mp (List.cons.inj ih).2⟩
      have hc0mem : c0 ∈ keyFilter (iterWebhook M s uid today) uid today := by
        rw [hkf]; exact List.mem_cons_self _ _
      have hc0pred : (c0.user_id == uid && c0.date == today) = true := by
        unfold keyFilter at hc0mem
        exact (List.mem_filter.mp hc0mem).2
      rw [incrementPushCounter, if_neg (by
        unfold keyFilter at hkf
        rw [hkf]
        simp)]
      unfold keyFilter
      dsimp only
      rw [filter_map_keyPreserving uid today _ (increment_keyPreserving uid today)]
      unfold keyFilter at hkf
      rw [hkf, hc0.2, List.map_cons, List.map_nil, List.map_cons, List.map_nil]
      rw [if_pos hc0pred]
      simp [hc0.1]

theorem sweepLoop_no_abort (d : Nat → Bool) (cs : List CounterRow) (hd : ∀ n, d n = true) :
    ∀ us (s : Store), (sweepLoop d cs us s).aborted = false := by
  intro us
  induction us with
  | nil => intro s; rfl
  | cons u rest ih =>
    intro s
    cases hcl : counterLookup cs u.id with
    | none => rw [sweepLoop_cons_none_ok d cs u rest s hcl (hd u.id)]; exact ih s
    | some c =>
      cases hdone : c.is_job_done with
      | true => rw [sweepLoop_cons_skip d cs u rest s c hcl hdone]; exact ih s
      | false =>
        by_cases hg : u.push_goal ≤ c.push_counter
        · rw [sweepLoop_cons_goal_ok d cs u rest s c hcl hdone hg (hd u.id)]
          exact ih (setJobDone s c.id)
        · rw [sweepLoop_cons_rem_ok d cs u rest s c hcl hdone hg (hd u.id)]; exact ih s

theorem runSweeps_nil (s : Store) (today : String) (d : Nat → Bool) :
    runSweeps s today [] d = (s, []) := rfl

theorem runSweeps_cons (s : Store) (today tm : String) (rest : List String) (d : Nat → Bool) :
    runSweeps s today (tm :: rest) d =
      ((runSweeps (checkPushGoals s today tm d).store today rest d).1,
        (checkPushGoals s today tm d).events ::
          (runSweeps (checkPushGoals s today tm d).store today rest d).2) := rfl

theorem checkPushGoals_reminder_step (s : Store) (today now : String) (u : User)
    (url t0 : String) (hu : u ∈ s.users) (hurl : u.discord_webhook_url = some url)
    (ht : u.annoy_time = some t0) (hnow : timeLe t0 now = true)
    (hrow : keyFilter s u.id today = []) (hgoal : 1 ≤ u.push_goal) :
    Event.send u.id url MsgKind.reminder true ∈
        (checkPushGoals s today now (fun _ => true)).events ∧
      keyFilter (checkPushGoals s today now (fun _ => true)).store u.id today = [] ∧
      (checkPushGoals s today now (fun _ => true)).store.users = s.users := by
  have hdue : u ∈ usersDue s now := by
    rw [usersDue, List.mem_filter]
    refine ⟨hu, ?_⟩
    rw [hurl, ht]
    exact hnow
  have hcl : counterLookup (countersFor s today ((usersDue s now).map User.id)) u.id = none :=
    counterLookup_countersFor_none s today _ u.id hrow
  obtain ⟨hf, hus, _⟩ := sweepLoop_store_inv (fun _ => true)
    (countersFor s today ((usersDue s now).map User.id)) (usersDue s now) s
  refine ⟨?_, ?_, ?_⟩
  · have hmem := sweepLoop_mem_of_deliver (fun _ => true) _ (fun _ => rfl) u hcl
      (usersDue s now) s hdue
    have hng : decide (u.push_goal ≤ 0) = false := by
      rw [decide_eq_false_iff_not]; omega
    rw [hng] at hmem
    rw [checkPushGoals_def]
    simpa [hurl] using hmem
  · rw [checkPushGoals_def]
    exact frame_keyFilter_nil hf u.id today hrow
  · rw [checkPushGoals_def]
    exact hus

/-! ## Claims -/

/-- C1, counterexample.  The claim says a failed delivery for one selected
user leaves the processing of the remaining users intact.  In this store,
user 1 (no counter row) and user 2 (counter row with 5 pushes, goal 1, not
done) are both due; the delivery to user 1 is rejected.  The sweep performs
only the failed send to user 1 and nothing for user 2: no send, and user 2's
`is_job_done` flag update is not performed (the counter row is unchanged),
refuting the claim at this input. -/
theorem C1_delivery_failure_cex :
    (checkPushGoals
        ⟨[⟨1, 11, 1, some "url1", some "08:00"⟩, ⟨2, 22, 1, some "url2", some "08:00"⟩],
         [⟨10, 2, "2026-01-01", 5, false⟩], 11⟩
        "2026-01-01" "12:00" (fun _ => false)).events
      = [Event.send 1 "url1" MsgKind.reminder false] ∧
    (checkPushGoals
        ⟨[⟨1, 11, 1, some "url1", some "08:00"⟩, ⟨2, 22, 1, some "url2", some "08:00"⟩],
         [⟨10, 2, "2026-01-01", 5, false⟩], 11⟩
        "2026-01-01" "12:00" (fun _ => false)).store.counters
      = [⟨10, 2, "2026-01-01", 5, false⟩] := by
  decide

/-- C1 (amended): if the delivery to a selected, non-skipped user is
rejected, the sweep stops there: its outcome equals processing only the
users up to and including the failing one, the users after it get no flag
update and no send in that sweep, and the sweep aborts. -/
theorem C1_failed_delivery_stops_batch (d : Nat → Bool) (cs : List CounterRow)
    (pre post : List User) (u : User) (s : Store)
    (hpre : (sweepLoop d cs pre s).aborted = false)
    (hskip : isSkipped cs u = false) (hfail : d u.id = false) :
    sweepLoop d cs (pre ++ u :: post) s = sweepLoop d cs (pre ++ [u]) s ∧
      (sweepLoop d cs (pre ++ u :: post) s).aborted = true := by
  have h1 := sweepLoop_append d cs pre (u :: post) s
  have h2 := sweepLoop_append d cs pre [u] s
  rw [hpre] at h1 h2
  simp only [Bool.false_eq_true, if_false] at h1 h2
  obtain ⟨hstep, habort⟩ :=
    sweepLoop_cons_of_fail d cs u hskip hfail post (sweepLoop d cs pre s).store
  rw [hstep] at h1
  have heq : sweepLoop d cs (pre ++ u :: post) s = sweepLoop d cs (pre ++ [u]) s := by
    rw [h1, h2]
  refine ⟨heq, ?_⟩
  rw [heq, h2]
  exact habort

/-- C1 (amended) witness: three users, delivery fails exactly for user 2;
the sweep over users 1, 2, 3 equals the sweep over users 1, 2 and aborts. -/
theorem C1_failed_delivery_stops_batch_witness :
    sweepLoop (fun n => decide (n ≠ 2)) []
        ([⟨1, 11, 1, some "a", some "08:00"⟩] ++
          (⟨2, 22, 1, some "b", some "08:00"⟩ : User) :: [⟨3, 33, 1, some "c", some "08:00"⟩])
        ⟨[], [], 1⟩
      = sweepLoop (fun n => decide (n ≠ 2)) []
          ([⟨1, 11, 1, some "a", some "08:00"⟩] ++ [⟨2, 22, 1, some "b", some "08:00"⟩])
          ⟨[], [], 1⟩ ∧
    (sweepLoop (fun n => decide (n ≠ 2)) []
        ([⟨1, 11, 1, some "a", some "08:00"⟩] ++
          (⟨2, 22, 1, some "b", some "08:00"⟩ : User) :: [⟨3, 33, 1, some "c", some "08:00"⟩])
        ⟨[], [], 1⟩).aborted = true :=
  C1_failed_delivery_stops_batch (fun n => decide (n ≠ 2)) []
    [⟨1, 11, 1, some "a", some "08:00"⟩] [⟨3, 33, 1, some "c", some "08:00"⟩]
    ⟨2, 22, 1, some "b", some "08:00"⟩ ⟨[], [], 1⟩ (by decide) (by decide) (by decide)

/-- C2: for a selected user whose fetched counter exists, is not yet done
and meets the goal, the sweep's actions for that user are exactly the
`is_job_done` write followed by the congratulatory delivery attempt (the
write comes strictly first), and if that delivery attempt failed, any later
sweep on the same date performs nothing for that user, so the
congratulation is never re-sent. -/
theorem C2_flag_set_before_congrats (s : Store) (today now : String) (d : Nat → Bool)
    (u : User) (c : CounterRow)
    (husers : (s.users.map User.id).Nodup)
    (hkeys : (s.counters.map fun x => (x.user_id, x.date)).Nodup)
    (hu : u ∈ usersDue s now)
    (hc : counterLookup (countersFor s today ((usersDue s now).map User.id)) u.id = some c)
    (hnd : c.is_job_done = false)
    (hg : u.push_goal ≤ c.push_counter) :
    ((checkPushGoals s today now d).events.filter (fun e => eventUser e == u.id) = [] ∨
      (checkPushGoals s today now d).events.filter (fun e => eventUser e == u.id) =
        [Event.flagSet c.id u.id,
         Event.send u.id (u.discord_webhook_url.getD "") MsgKind.congrats (d u.id)]) ∧
    (Event.send u.id (u.discord_webhook_url.getD "") MsgKind.congrats false ∈
        (checkPushGoals s today now d).events →
      ∀ (now2 : String) (d2 : Nat → Bool),
        ∀ e ∈ (checkPushGoals (checkPushGoals s today now d).store today now2 d2).events,
          eventUser e ≠ u.id) := by
  have hmain := sweepLoop_goal_met_filter d _ u c hc hnd hg (usersDue s now) s
    (usersDue_ids_nodup s now husers) hu
  rw [checkPushGoals_def]
  constructor
  · rcases hmain with h | ⟨h, _⟩
    · exact Or.inl h
    · exact Or.inr h
  · intro hsend now2 d2 e he
    have hfilter : (sweepLoop d (countersFor s today ((usersDue s now).map User.id))
        (usersDue s now) s).events.filter (fun e => eventUser e == u.id) ≠ [] := by
      intro hnil
      have hm : Event.send u.id (u.discord_webhook_url.getD "") MsgKind.congrats false ∈
          (sweepLoop d (countersFor s today ((usersDue s now).map User.id))
            (usersDue s now) s).events.filter (fun e => eventUser e == u.id) :=
        List.mem_filter.mpr ⟨hsend, by simp [eventUser_send]⟩
      rw [hnil] at hm
      cases hm
    rcases hmain with h | ⟨_, hstore⟩
    · exact absurd h hfilter
    · obtain ⟨hcmem, hcu⟩ := counterLookup_mem _ _ c hc
      have hcs : c ∈ s.counters := by
        rw [countersFor] at hcmem
        exact (List.mem_filter.mp hcmem).1
      have hcd : c.date = today := by
        have hp := (List.mem_filter.mp (by rw [countersFor] at hcmem; exact hcmem :
          c ∈ s.counters.filter fun x => x.date == today &&
            ((usersDue s now).map User.id).contains x.user_id)).2
        have := (Bool.and_eq_true _ _).mp hp |>.1
        simpa using this
      obtain ⟨hf, _, _⟩ := sweepLoop_store_inv d
        (countersFor s today ((usersDue s now).map User.id)) (usersDue s now) s
      obtain ⟨c1, hc1mem, hc1f⟩ := forall2_mem_left hf hcs
      have hc1done : c1.is_job_done = true := hstore c1 hc1mem hc1f.1
      have hkeys2 : ((sweepLoop d (countersFor s today ((usersDue s now).map User.id))
          (usersDue s now) s).store.counters.map fun x => (x.user_id, x.date)).Nodup := by
        rw [frame_keys hf]
        exact hkeys
      exact checkPushGoals_silent_of_done _ today now2 d2 u.id c1 hkeys2 hc1mem
        (hc1f.2.1.trans hcu) (hc1f.2.2.1.trans hcd) hc1done e he

/-- C2 witness: one due user with goal 1 and 3 pushes; the delivery is
rejected, yet the trace for that user is the flag write immediately followed
by the failed congratulatory attempt, and the next sweep on the same date
performs nothing for that user. -/
theorem C2_flag_set_before_congrats_witness :
    ((checkPushGoals ⟨[⟨1, 11, 1, some "url1", some "08:00"⟩],
          [⟨10, 1, "2026-01-01", 3, false⟩], 11⟩ "2026-01-01" "12:00"
          (fun _ => false)).events.filter (fun e => eventUser e == 1) = [] ∨
      (checkPushGoals ⟨[⟨1, 11, 1, some "url1", some "08:00"⟩],
          [⟨10, 1, "2026-01-01", 3, false⟩], 11⟩ "2026-01-01" "12:00"
          (fun _ => false)).events.filter (fun e => eventUser e == 1) =
        [Event.flagSet 10 1, Event.send 1 "url1" MsgKind.congrats false]) ∧
    (Event.send 1 "url1" MsgKind.congrats false ∈
        (checkPushGoals ⟨[⟨1, 11, 1, some "url1", some "08:00"⟩],
          [⟨10, 1, "2026-01-01", 3, false⟩], 11⟩ "2026-01-01" "12:00"
          (fun _ => false)).events →
      ∀ (now2 : String) (d2 : Nat → Bool),
        ∀ e ∈ (checkPushGoals
            (checkPushGoals ⟨[⟨1, 11, 1, some "url1", some "08:00"⟩],
              [⟨10, 1, "2026-01-01", 3, false⟩], 11⟩ "2026-01-01" "12:00"
              (fun _ => false)).store "2026-01-01" now2 d2).events,
          eventUser e ≠ 1) :=
  C2_flag_set_before_congrats
    ⟨[⟨1, 11, 1, some "url1", some "08:00"⟩], [⟨10, 1, "2026-01-01", 3, false⟩], 11⟩
    "2026-01-01" "12:00" (fun _ => false)
    ⟨1, 11, 1, some "url1", some "08:00"⟩ ⟨10, 1, "2026-01-01", 3, false⟩
    (by decide) (by decide) (by decide) (by decide) (by decide) (by decide)

/-- C3: `is_job_done` is a one-way latch.  (1) The webhook increment leaves
the flag of every existing row unchanged and creates new rows with the flag
false.  (2) A sweep preserves every counter row's identity, key and count,
only ever moving `is_job_done` from false to true, and never writes the
users table.  (3) Once the flag is true for a (user, date) row, a sweep on
that date performs no action at all for that user: neither a
congratulation nor a reminder is sent. -/
theorem C3_is_job_done_latch :
    (∀ (s : Store) (uid : Nat) (today : String),
      List.Forall₂ (fun c0 c1 => c1.is_job_done = c0.is_job_done) s.counters
          ((incrementPushCounter s uid today).counters.take s.counters.length) ∧
        ∀ c ∈ (incrementPushCounter s uid today).counters.drop s.counters.length,
          c.is_job_done = false) ∧
    (∀ (s : Store) (today now : String) (d : Nat → Bool),
      List.Forall₂ counterFrame s.counters (checkPushGoals s today now d).store.counters ∧
        (checkPushGoals s today now d).store.users = s.users) ∧
    (∀ (s : Store) (today now : String) (d : Nat → Bool) (uid : Nat) (c : CounterRow),
      (s.counters.map fun x => (x.user_id, x.date)).Nodup → c ∈ s.counters →
        c.user_id = uid → c.date = today → c.is_job_done = true →
        ∀ e ∈ (checkPushGoals s today now d).events, eventUser e ≠ uid) := by
  refine ⟨?_, ?_, ?_⟩
  · intro s uid today
    rw [incrementPushCounter]
    by_cases hemp :
        s.counters.filter (fun c => c.user_id == uid && c.date == today) = []
    · rw [if_pos hemp]
      dsimp only
      constructor
      · rw [List.take_left]
        exact List.forall₂_same.mpr fun c _ => rfl
      · rw [List.drop_left]
        intro c hc
        have : c = ⟨s.nextCounterId, uid, today, 1, false⟩ := by simpa using hc
        rw [this]
    · rw [if_neg hemp]
      dsimp only
      constructor
      · rw [show s.counters.length =
            (s.counters.map fun c =>
              if c.user_id == uid && c.date == today then
                { c with push_counter := c.push_counter + 1 } else c).length from
            (List.length_map _ _).symm, List.take_length, List.forall₂_map_right_iff]
        refine List.forall₂_same.mpr fun c _ => ?_
        by_cases hcond : (c.user_id == uid && c.date == today) = true
        · rw [if_pos hcond]
        · rw [if_neg hcond]
      · rw [show s.counters.length =
            (s.counters.map fun c =>
              if c.user_id == uid && c.date == today then
                { c with push_counter := c.push_counter + 1 } else c).length from
            (List.length_map _ _).symm, List.drop_length]
        intro c hc
        cases hc
  · intro s today now d
    rw [checkPushGoals_def]
    obtain ⟨h1, h2, _⟩ := sweepLoop_store_inv d
      (countersFor s today ((usersDue s now).map User.id)) (usersDue s now) s
    exact ⟨h1, h2⟩
  · intro s today now d uid c hkeys hc hcu hcd hdone
    exact checkPushGoals_silent_of_done s today now d uid c hkeys hc hcu hcd hdone

/-- C3 witness: the latch's silence clause at a concrete store: the sole
user's counter for the date is already done, and the sweep emits no event
for that user. -/
theorem C3_is_job_done_latch_witness :
    ∀ e ∈ (checkPushGoals ⟨[⟨1, 11, 1, some "url1", some "08:00"⟩],
        [⟨10, 1, "2026-01-01", 3, true⟩], 11⟩ "2026-01-01" "12:00" (fun _ => true)).events,
      eventUser e ≠ 1 :=
  C3_is_job_done_latch.2.2
    ⟨[⟨1, 11, 1, some "url1", some "08:00"⟩], [⟨10, 1, "2026-01-01", 3, true⟩], 11⟩
    "2026-01-01" "12:00" (fun _ => true) 1 ⟨10, 1, "2026-01-01", 3, true⟩
    (by decide) (by decide) (by decide) (by decide) (by decide)

/-- C4: a user with a webhook URL, an `annoy_time` at or before every sweep
time, a positive goal and no counter row for the date is sent a reminder by
every sweep in the sequence (an absent counter is treated as zero pushes and
not done), and the sweeps themselves never create a counter row for the
user, so the reminders repeat until a push arrives or the date changes.
Deliveries are taken as succeeding. -/
theorem C4_reminder_every_sweep (s : Store) (today : String) (times : List String)
    (u : User) (url t0 : String)
    (hu : u ∈ s.users) (hurl : u.discord_webhook_url = some url)
    (ht : u.annoy_time = some t0) (htimes : ∀ tm ∈ times, timeLe t0 tm = true)
    (hrow : keyFilter s u.id today = []) (hgoal : 1 ≤ u.push_goal) :
    ∀ evs ∈ (runSweeps s today times (fun _ => true)).2,
      Event.send u.id url MsgKind.reminder true ∈ evs := by
  suffices h : ∀ (ts : List String) (s2 : Store), u ∈ s2.users →
      keyFilter s2 u.id today = [] → (∀ tm ∈ ts, timeLe t0 tm = true) →
      ∀ evs ∈ (runSweeps s2 today ts (fun _ => true)).2,
        Event.send u.id url MsgKind.reminder true ∈ evs from
    h times s hu hrow htimes
  intro ts
  induction ts with
  | nil =>
    intro s2 _ _ _ evs hevs
    rw [runSweeps_nil] at hevs
    cases hevs
  | cons tm rest ih =>
    intro s2 hu2 hrow2 hts evs hevs
    rw [runSweeps_cons] at hevs
    obtain ⟨hsend, hrow3, husers3⟩ := checkPushGoals_reminder_step s2 today tm u url t0
      hu2 hurl ht (hts tm (List.mem_cons_self _ _)) hrow2 hgoal
    rcases List.mem_cons.mp hevs with rfl | h2
    · exact hsend
    · exact ih (checkPushGoals s2 today tm (fun _ => true)).store (husers3 ▸ hu2) hrow3
        (fun x hx => hts x (List.mem_cons_of_mem _ hx)) evs h2

/-- C4 witness: the spec scenario: goal 1, zero pushes and no counter row,
`annoy_time` 08:00, sweeps scheduled at 08:05, 08:10 and 08:15; the 08:05
sweep (the head of the sequence) sends the reminder. -/
theorem C4_reminder_every_sweep_witness :
    Event.send 1 "url1" MsgKind.reminder true ∈
      (checkPushGoals ⟨[⟨1, 11, 1, some "url1", some "08:00"⟩], [], 1⟩ "2026-01-01" "08:05"
        (fun _ => true)).events :=
  C4_reminder_every_sweep ⟨[⟨1, 11, 1, some "url1", some "08:00"⟩], [], 1⟩ "2026-01-01"
    ["08:05", "08:10", "08:15"] ⟨1, 11, 1, some "url1", some "08:00"⟩ "url1" "08:00"
    (by decide) (by decide) (by decide) (by decide) (by decide) (by decide)
    (checkPushGoals ⟨[⟨1, 11, 1, some "url1", some "08:00"⟩], [], 1⟩ "2026-01-01" "08:05"
      (fun _ => true)).events
    (by rw [runSweeps_cons]; exact List.mem_cons_self _ _)

/-- C5: a user whose `annoy_time` is null is never selected by the sweep's
user query and receives no action from the sweep at all, whatever the
counter state or the clock. -/
theorem C5_null_annoy_time_excluded (s : Store) (today now : String) (d : Nat → Bool)
    (u : User) (hnodup : (s.users.map User.id).Nodup) (hu : u ∈ s.users)
    (ha : u.annoy_time = none) :
    u ∉ usersDue s now ∧
      ∀ e ∈ (checkPushGoals s today now d).events, eventUser e ≠ u.id := by
  have hnot : u ∉ usersDue s now := by
    intro hmem
    have hp := (List.mem_filter.mp hmem).2
    rw [ha] at hp
    cases hurl : u.discord_webhook_url with
    | none => rw [hurl] at hp; simp at hp
    | some x => rw [hurl] at hp; simp at hp
  refine ⟨hnot, ?_⟩
  intro e he heq
  rw [checkPushGoals_def] at he
  obtain ⟨v, hv, hve⟩ := sweepLoop_event_users d
    (countersFor s today ((usersDue s now).map User.id)) (usersDue s now) s e he
  have hvs : v ∈ s.users := usersDue_sub s now v hv
  have hveq : v = u := List.inj_on_of_nodup_map hnodup hvs hu (by rw [← hve, heq])
  rw [hveq] at hv
  exact hnot hv

/-- C5 witness: user 1 has `annoy_time = null`; the sweep selects only user
2 and performs nothing for user 1. -/
theorem C5_null_annoy_time_excluded_witness :
    (⟨1, 11, 1, some "url1", none⟩ : User) ∉
        usersDue ⟨[⟨1, 11, 1, some "url1", none⟩, ⟨2, 22, 1, some "url2", some "08:00"⟩],
          [⟨10, 1, "2026-01-01", 7, false⟩], 11⟩ "12:00" ∧
      ∀ e ∈ (checkPushGoals
          ⟨[⟨1, 11, 1, some "url1", none⟩, ⟨2, 22, 1, some "url2", some "08:00"⟩],
            [⟨10, 1, "2026-01-01", 7, false⟩], 11⟩ "2026-01-01" "12:00"
          (fun _ => true)).events, eventUser e ≠ 1 :=
  C5_null_annoy_time_excluded
    ⟨[⟨1, 11, 1, some "url1", none⟩, ⟨2, 22, 1, some "url2", some "08:00"⟩],
      [⟨10, 1, "2026-01-01", 7, false⟩], 11⟩ "2026-01-01" "12:00" (fun _ => true)
    ⟨1, 11, 1, some "url1", none⟩ (by decide) (by decide) (by decide)

/-- C6, counterexample.  The claim says every mismatching signature yields a
401 response.  With a correct 64-hex-character digest and a claimed
signature of a different byte length ("deadbeef"), `crypto.timingSafeEqual`
throws on the unequal buffer lengths: the handler crashes instead of
responding 401 (the store is still untouched). -/
theorem C6_length_mismatch_cex :
    gitwebhook ⟨[⟨1, 11, 1, some "url1", some "08:00"⟩], [], 1⟩
        "0123456789abcdef0123456789abcdef0123456789abcdef0123456789abcdef"
        (some "deadbeef") (Except.ok (some 11)) "2026-01-01" true
      = WebhookOutcome.crashed ⟨[⟨1, 11, 1, some "url1", some "08:00"⟩], [], 1⟩ ∧
    ("deadbeef" : String) ≠
      "sha256=" ++ "0123456789abcdef0123456789abcdef0123456789abcdef0123456789abcdef" := by
  constructor
  · decide
  · decide

/-- C6 (amended): on a mismatching claimed signature the handler never
mutates the store, and it responds 401 exactly when the claimed signature
has the same byte length as the expected `sha256=<hex>` string; a claimed
signature of a different length, or a missing signature header, makes the
handler throw (still with the store untouched). -/
theorem C6_bad_signature_rejected (store : Store) (digest sig : String)
    (parsed : Except Unit (Option Int)) (today : String) (rpcOk : Bool)
    (hne : sig ≠ "sha256=" ++ digest) :
    (sig.utf8ByteSize = ("sha256=" ++ digest).utf8ByteSize →
      gitwebhook store digest (some sig) parsed today rpcOk
        = WebhookOutcome.responded 401 store) ∧
    (sig.utf8ByteSize ≠ ("sha256=" ++ digest).utf8ByteSize →
      gitwebhook store digest (some sig) parsed today rpcOk
        = WebhookOutcome.crashed store) ∧
    (∀ (parsed2 : Except Unit (Option Int)) (rpcOk2 : Bool),
      gitwebhook store digest none parsed2 today rpcOk2
        = WebhookOutcome.crashed store) := by
  refine ⟨?_, ?_, ?_⟩
  · intro hlen
    simp [gitwebhook, hlen, hne]
  · intro hlen
    simp [gitwebhook, hlen]
  · intro parsed2 rpcOk2
    rfl

/-- C6 (amended) witness: a present signature of the right length but wrong
value gets a 401 with the store unchanged; the missing-header case
crashes. -/
theorem C6_bad_signature_rejected_witness :
    (("sha256=d2" : String).utf8ByteSize = ("sha256=" ++ "d1").utf8ByteSize →
      gitwebhook ⟨[], [], 0⟩ "d1" (some "sha256=d2") (Except.ok (some 5)) "2026-01-01" true
        = WebhookOutcome.responded 401 ⟨[], [], 0⟩) ∧
    (("sha256=d2" : String).utf8ByteSize ≠ ("sha256=" ++ "d1").utf8ByteSize →
      gitwebhook ⟨[], [], 0⟩ "d1" (some "sha256=d2") (Except.ok (some 5)) "2026-01-01" true
        = WebhookOutcome.crashed ⟨[], [], 0⟩) ∧
    (∀ (parsed2 : Except Unit (Option Int)) (rpcOk2 : Bool),
      gitwebhook ⟨[], [], 0⟩ "d1" none parsed2 "2026-01-01" rpcOk2
        = WebhookOutcome.crashed ⟨[], [], 0⟩) :=
  C6_bad_signature_rejected ⟨[], [], 0⟩ "d1" "sha256=d2" (Except.ok (some 5))
    "2026-01-01" true (by decide)

/-- C7: a validly signed webhook whose sender matches no stored user gets a
404 response and the store is returned unchanged: no counter row is created
or incremented and no user row is written. -/
theorem C7_unknown_user_404_no_mutation (store : Store) (digest : String)
    (senderId : Option Int) (today : String) (rpcOk : Bool)
    (hfind : findUserByGithubId store senderId = none) :
    gitwebhook store digest (some ("sha256=" ++ digest)) (Except.ok senderId) today rpcOk
      = WebhookOutcome.responded 404 store := by
  simp [gitwebhook, hfind]

/-- C7 witness: a signed webhook for github id 99 against a store that only
knows github id 11 responds 404 with the store unchanged. -/
theorem C7_unknown_user_404_no_mutation_witness :
    gitwebhook ⟨[⟨1, 11, 1, some "url1", some "08:00"⟩], [], 1⟩ "d1"
        (some ("sha256=" ++ "d1")) (Except.ok (some 99)) "2026-01-01" true
      = WebhookOutcome.responded 404 ⟨[⟨1, 11, 1, some "url1", some "08:00"⟩], [], 1⟩ :=
  C7_unknown_user_404_no_mutation ⟨[⟨1, 11, 1, some "url1", some "08:00"⟩], [], 1⟩ "d1"
    (some 99) "2026-01-01" true (by decide)

/-- C8: each validly signed webhook for a known user performs exactly one
atomic increment-or-create on the (user, today) counter, and N such
increments starting from no row produce exactly one row with
`push_count = N`; since the store operation is atomic, any interleaving of
N concurrent deliveries serialises into these N increments, so no update is
lost.  (The `increment_push_counter` RPC itself is not in the repository
and is modelled from the spec.) -/
theorem C8_n_webhooks_count_n :
    (∀ (s2 : Store) (digest : String) (gid : Int) (u : User) (today : String),
      findUserByGithubId s2 (some gid) = some u →
      gitwebhook s2 digest (some ("sha256=" ++ digest)) (Except.ok (some gid)) today true
        = WebhookOutcome.responded 200 (incrementPushCounter s2 u.id today)) ∧
    (∀ (s : Store) (uid : Nat) (today : String) (N : Nat),
      keyFilter s uid today = [] →
      (keyFilter (iterWebhook N s uid today) uid today).map CounterRow.push_counter
        = if N = 0 then [] else [(N : Int)]) := by
  constructor
  · intro s2 digest gid u today hfind
    simp [gitwebhook, hfind]
  · intro s uid today N h0
    exact keyFilter_iterWebhook uid today s h0 N

/-- C8 witness: three serialised webhook increments for user 1 starting from
no counter row leave exactly one row with `push_count = 3`, and a single
valid delivery is the 200-response atomic increment. -/
theorem C8_n_webhooks_count_n_witness :
    gitwebhook ⟨[⟨1, 11, 1, some "url1", some "08:00"⟩], [], 1⟩ "d1"
        (some ("sha256=" ++ "d1")) (Except.ok (some 11)) "2026-01-01" true
      = WebhookOutcome.responded 200
          (incrementPushCounter ⟨[⟨1, 11, 1, some "url1", some "08:00"⟩], [], 1⟩ 1
            "2026-01-01") ∧
    (keyFilter (iterWebhook 3 ⟨[⟨1, 11, 1, some "url1", some "08:00"⟩], [], 1⟩ 1
        "2026-01-01") 1 "2026-01-01").map CounterRow.push_counter
      = if 3 = 0 then [] else [(3 : Int)] :=
  ⟨C8_n_webhooks_count_n.1 ⟨[⟨1, 11, 1, some "url1", some "08:00"⟩], [], 1⟩ "d1" 11
      ⟨1, 11, 1, some "url1", some "08:00"⟩ "2026-01-01" (by decide),
    C8_n_webhooks_count_n.2 ⟨[⟨1, 11, 1, some "url1", some "08:00"⟩], [], 1⟩ 1
      "2026-01-01" 3 (by decide)⟩

/-- C9, counterexample.  The claim says no request shape makes the webhook
handler itself throw, explicitly including a missing signature header.  A
request with no `X-Hub-Signature-256` header makes
`Buffer.from(undefined)` throw: the handler crashes instead of
responding. -/
theorem C9_missing_signature_cex :
    gitwebhook ⟨[⟨1, 11, 1, some "url1", some "08:00"⟩], [], 1⟩ "d0" none
        (Except.ok (some 11)) "2026-01-01" true
      = WebhookOutcome.crashed ⟨[⟨1, 11, 1, some "url1", some "08:00"⟩], [], 1⟩ := by
  decide

/-- C9 (amended): the webhook handler converts equal-length bad signatures,
unknown users and store failures to responses (401, 404, 500; only the 200
path mutates the store), but it throws exactly when the signature header is
missing, has a different byte length than the expected digest string, or
the payload parse throws after a valid signature; and the sweep runs to
completion (no abort) when every delivery succeeds, while a rejected
delivery aborts it. -/
theorem C9_error_surface :
    (∀ (store : Store) (digest : String) (signature : Option String)
        (parsed : Except Unit (Option Int)) (today : String) (rpcOk : Bool),
      gitwebhook store digest signature parsed today rpcOk = WebhookOutcome.crashed store ↔
        (signature = none ∨
          (∃ sg, signature = some sg ∧
            sg.utf8ByteSize ≠ ("sha256=" ++ digest).utf8ByteSize) ∨
          (signature = some ("sha256=" ++ digest) ∧ parsed = Except.error ()))) ∧
    (∀ (store : Store) (digest : String) (signature : Option String)
        (parsed : Except Unit (Option Int)) (today : String) (rpcOk : Bool)
        (st : Nat) (s2 : Store),
      gitwebhook store digest signature parsed today rpcOk
          = WebhookOutcome.responded st s2 →
        (st = 200 ∨ st = 401 ∨ st = 404 ∨ st = 500) ∧ (st ≠ 200 → s2 = store)) ∧
    (∀ (s : Store) (today now : String) (d : Nat → Bool),
      (∀ n, d n = true) → (checkPushGoals s today now d).aborted = false) := by
  refine ⟨?_, ?_, ?_⟩
  · intro store digest signature parsed today rpcOk
    cases signature with
    | none => simp [gitwebhook]
    | some sg =>
      by_cases hlen : sg.utf8ByteSize = ("sha256=" ++ digest).utf8ByteSize
      · by_cases heq : sg = "sha256=" ++ digest
        · subst heq
          cases parsed with
          | error u => cases u; simp [gitwebhook, hlen]
          | ok senderId =>
            cases hfind : findUserByGithubId store senderId with
            | none => simp [gitwebhook, hlen, hfind]
            | some u =>
              cases rpcOk with
              | true => simp [gitwebhook, hlen, hfind]
              | false => simp [gitwebhook, hlen, hfind]
        · simp [gitwebhook, hlen, heq]
      · simp [gitwebhook, hlen]
  · intro store digest signature parsed today rpcOk st s2 h
    cases signature with
    | none => simp [gitwebhook] at h
    | some sg =>
      by_cases hlen : sg.utf8ByteSize = ("sha256=" ++ digest).utf8ByteSize
      · by_cases heq : sg = "sha256=" ++ digest
        · subst heq
          cases parsed with
          | error u => simp [gitwebhook, hlen] at h
          | ok senderId =>
            cases hfind : findUserByGithubId store senderId with
            | none =>
              simp [gitwebhook, hlen, hfind] at h
              obtain ⟨h1, h2⟩ := h
              exact ⟨by omega, fun _ => by simp [h2]⟩
            | some u =>
              cases rpcOk with
              | true =>
                simp [gitwebhook, hlen, hfind] at h
                obtain ⟨h1, h2⟩ := h
                exact ⟨by omega, fun hne => absurd (by omega : st = 200) hne⟩
              | false =>
                simp [gitwebhook, hlen, hfind] at h
                obtain ⟨h1, h2⟩ := h
                exact ⟨by omega, fun _ => by simp [h2]⟩
        · simp [gitwebhook, hlen, heq] at h
          obtain ⟨h1, h2⟩ := h
          exact ⟨by omega, fun _ => by simp [h2]⟩
      · simp [gitwebhook, hlen] at h
  · intro s today now d hd
    rw [checkPushGoals_def]
    exact sweepLoop_no_abort d _ hd (usersDue s now) s

/-- C9 (amended) witness: a sweep with all deliveries succeeding does not
abort, and a concrete valid-signature unknown-user call is a 404 that is
one of the declared codes with the store unchanged. -/
theorem C9_error_surface_witness :
    (checkPushGoals ⟨[⟨1, 11, 1, some "url1", some "08:00"⟩],
        [⟨10, 1, "2026-01-01", 3, false⟩], 11⟩ "2026-01-01" "12:00"
        (fun _ => true)).aborted = false ∧
    ((404 = 200 ∨ 404 = 401 ∨ 404 = 404 ∨ 404 = 500) ∧
      (404 ≠ 200 → (⟨[], [], 0⟩ : Store) = ⟨[], [], 0⟩)) :=
  ⟨C9_error_surface.2.2 ⟨[⟨1, 11, 1, some "url1", some "08:00"⟩],
      [⟨10, 1, "2026-01-01", 3, false⟩], 11⟩ "2026-01-01" "12:00" (fun _ => true)
      (fun _ => rfl),
    C9_error_surface.2.1 ⟨[], [], 0⟩ "d1" (some ("sha256=" ++ "d1"))
      (Except.ok (some 99)) "2026-01-01" true 404 ⟨[], [], 0⟩ (by decide)⟩

/-- C10: with the schema's `push_goal >= 1`, the `goalMet && counter` guard
of the sweep is equivalent to `goalMet` alone — an absent counter row gives
`pushCount = 0 < push_goal`, so `goalMet` already implies the row exists —
and consequently every congratulatory delivery attempt of a sweep over such
users is immediately preceded in its trace by the `is_job_done` write on
that existing row. -/
theorem C10_goal_met_needs_counter :
    (∀ (cs : List CounterRow) (u : User), 1 ≤ u.push_goal →
      ((decide (u.push_goal ≤ pushCountOf cs u.id) && (counterLookup cs u.id).isSome) =
          decide (u.push_goal ≤ pushCountOf cs u.id) ∧
        (counterLookup cs u.id = none →
          decide (u.push_goal ≤ pushCountOf cs u.id) = false))) ∧
    (∀ (s : Store) (today now : String) (d : Nat → Bool),
      (∀ u ∈ s.users, 1 ≤ u.push_goal) →
      congratsFlagged (checkPushGoals s today now d).events = true) := by
  constructor
  · intro cs u hg
    cases hcl : counterLookup cs u.id with
    | none =>
      have hpc : pushCountOf cs u.id = 0 := by simp [pushCountOf, hcl]
      have hng : decide (u.push_goal ≤ pushCountOf cs u.id) = false := by
        rw [decide_eq_false_iff_not, hpc]
        omega
      rw [hng]
      exact ⟨rfl, fun _ => rfl⟩
    | some c =>
      constructor
      · simp [hcl]
      · intro hnone
        simp at hnone
  · intro s today now d hall
    rw [checkPushGoals_def]
    exact sweepLoop_congratsFlagged d _ (usersDue s now) s
      (fun u hu => hall u (usersDue_sub s now u hu))

/-- C10 witness: the guard equivalence at an empty counter fetch for a
goal-1 user, and a sweep over a goal-met user whose trace passes the
flag-before-congratulation check. -/
theorem C10_goal_met_needs_counter_witness :
    ((decide ((1 : Int) ≤ pushCountOf [] 1) && (counterLookup [] 1).isSome) =
        decide ((1 : Int) ≤ pushCountOf [] 1) ∧
      (counterLookup [] 1 = none → decide ((1 : Int) ≤ pushCountOf [] 1) = false)) ∧
    congratsFlagged (checkPushGoals ⟨[⟨1, 11, 1, some "url1", some "08:00"⟩],
        [⟨10, 1, "2026-01-01", 3, false⟩], 11⟩ "2026-01-01" "12:00"
        (fun _ => true)).events = true :=
  ⟨C10_goal_met_needs_counter.1 [] ⟨1, 11, 1, some "url1", some "08:00"⟩ (by decide),
    C10_goal_met_needs_counter.2 ⟨[⟨1, 11, 1, some "url1", some "08:00"⟩],
      [⟨10, 1, "2026-01-01", 3, false⟩], 11⟩ "2026-01-01" "12:00" (fun _ => true)
      (by decide)⟩
